import Mathlib

/-!
# Verification of the Electrode app generator's configuration-resolution engine

Shallow embedding of `src/packages/generator-electrode/generators/app/index.js`:
the `initializing` phase (manifest read, feature detection, author parsing), the
`prompting.askFor` phase (name resolution, the prompt table with its `when`
guards, the destination-root relocation and State Store write in the prompt
callback), the `writing` phase (glob exclusion rules, the manifest patch built
with lodash `defaultsDeep`/`merge`, keyword combination, dependency-group
sorting, root config selection) and the `end` phase (formatter gating).

External library functions used by the generator (lodash `kebabCase`, `deburr`,
`uniq`, `isEmpty`, the `parse-author` package) are embedded from their
documented behaviour, restricted to the character ranges exercised here.
-/

namespace Electrode

/-! ## Character and string helpers -/

def isUpperCh (c : Char) : Bool := decide (65 ≤ c.toNat ∧ c.toNat ≤ 90)

def isLowerCh (c : Char) : Bool := decide (97 ≤ c.toNat ∧ c.toNat ≤ 122)

def isDigitCh (c : Char) : Bool := decide (48 ≤ c.toNat ∧ c.toNat ≤ 57)

def toLowerCh (c : Char) : Char :=
  if isUpperCh c then Char.ofNat (c.toNat + 32) else c

/-- JavaScript truthiness of a possibly-undefined string
(`undefined` and `""` are falsy). -/
def jsTruthyS : Option String → Bool
  | none => false
  | some s => s != ""

/-- JavaScript `a || b` on possibly-undefined strings. -/
def jsOrS (a b : Option String) : Option String :=
  if jsTruthyS a then a else b

/-- JavaScript truthiness of a possibly-undefined boolean. -/
def jsTruthyB : Option Bool → Bool
  | none => false
  | some b => b

/-! ## lodash `words` / `kebabCase`

`_.kebabCase(s)` splits `s` (apostrophes removed) into words — runs of
letters and digits, split at lower→upper camel boundaries, at letter/digit
boundaries, and before the final upper of an all-caps run followed by a
lower — lowercases each word, and joins them with `-`.  Current word is
kept reversed in the accumulator. -/

def pushWord (acc : List (List Char)) (w : List Char) : List (List Char) :=
  if w.isEmpty then acc else acc ++ [w.reverse]

def wordsAux (acc : List (List Char)) (w : List Char) :
    List Char → List (List Char)
  | [] => pushWord acc w
  | c :: rest =>
    if isDigitCh c then
      match w with
      | [] => wordsAux acc [c] rest
      | p :: _ =>
        if isDigitCh p then wordsAux acc (c :: w) rest
        else wordsAux (pushWord acc w) [c] rest
    else if isLowerCh c then
      match w with
      | [] => wordsAux acc [c] rest
      | p :: pw =>
        if isLowerCh p then wordsAux acc (c :: w) rest
        else if isUpperCh p then
          match pw with
          | [] => wordsAux acc (c :: w) rest
          | q :: _ =>
            if isUpperCh q then wordsAux (pushWord acc pw) [c, p] rest
            else wordsAux acc (c :: w) rest
        else wordsAux (pushWord acc w) [c] rest
    else if isUpperCh c then
      match w with
      | [] => wordsAux acc [c] rest
      | p :: _ =>
        if isUpperCh p then wordsAux acc (c :: w) rest
        else wordsAux (pushWord acc w) [c] rest
    else wordsAux (pushWord acc w) [] rest

/-- lodash `_.words` restricted to ASCII input, after apostrophe removal. -/
def lodashWords (s : String) : List (List Char) :=
  wordsAux [] []
    (s.toList.filter (fun c => decide (c.toNat ≠ 39) && decide (c.toNat ≠ 8217)))

/-- lodash `_.kebabCase`. -/
def kebabCase (s : String) : String :=
  String.intercalate "-" ((lodashWords s).map (fun w => String.mk (w.map toLowerCh)))

/-! ## lodash `deburr`

Maps Latin-1 supplement letters to their basic-Latin equivalents
(the generator only ever feeds project names through it). -/

def deburrTable : List (Nat × String) :=
  [(0xC0, "A"), (0xC1, "A"), (0xC2, "A"), (0xC3, "A"), (0xC4, "A"), (0xC5, "A"),
   (0xC6, "Ae"), (0xC7, "C"),
   (0xC8, "E"), (0xC9, "E"), (0xCA, "E"), (0xCB, "E"),
   (0xCC, "I"), (0xCD, "I"), (0xCE, "I"), (0xCF, "I"),
   (0xD0, "D"), (0xD1, "N"),
   (0xD2, "O"), (0xD3, "O"), (0xD4, "O"), (0xD5, "O"), (0xD6, "O"), (0xD8, "O"),
   (0xD9, "U"), (0xDA, "U"), (0xDB, "U"), (0xDC, "U"),
   (0xDD, "Y"), (0xDE, "Th"), (0xDF, "ss"),
   (0xE0, "a"), (0xE1, "a"), (0xE2, "a"), (0xE3, "a"), (0xE4, "a"), (0xE5, "a"),
   (0xE6, "ae"), (0xE7, "c"),
   (0xE8, "e"), (0xE9, "e"), (0xEA, "e"), (0xEB, "e"),
   (0xEC, "i"), (0xED, "i"), (0xEE, "i"), (0xEF, "i"),
   (0xF0, "d"), (0xF1, "n"),
   (0xF2, "o"), (0xF3, "o"), (0xF4, "o"), (0xF5, "o"), (0xF6, "o"), (0xF8, "o"),
   (0xF9, "u"), (0xFA, "u"), (0xFB, "u"), (0xFC, "u"),
   (0xFD, "y"), (0xFE, "th"), (0xFF, "y")]

def deburrChar (c : Char) : String :=
  match deburrTable.lookup c.toNat with
  | some s => s
  | none => String.singleton c

/-- lodash `_.deburr` (restricted to the Latin-1 supplement letters). -/
def deburr (s : String) : String :=
  String.join (s.toList.map deburrChar)

/-! ## `parse-author`

Modelled from the spec: the best-effort free-text author parser (the external
`parse-author` npm dependency, whose source is not part of this repository).
It splits `"Name <email> (url)"` into its three parts; a part that is not
present (or empty after trimming) is simply not produced, and no input is an
error. -/

structure AuthorInfo where
  name : Option String := none
  email : Option String := none
  url : Option String := none
deriving DecidableEq, Repr

def afterChar (c : Char) : List Char → Option (List Char)
  | [] => none
  | x :: xs => if x == c then some xs else afterChar c xs

/-- The text strictly between the first `o` and the following `c`, if both
delimiters are present. -/
def sectionBetween (l : List Char) (o c : Char) : Option String :=
  match afterChar o l with
  | none => none
  | some rest =>
    if rest.any (fun x => x == c) then
      some (String.mk (rest.takeWhile (fun x => x != c)))
    else none

def isWSCh (c : Char) : Bool :=
  decide (c.toNat = 32) || decide (c.toNat = 9) ||
  decide (c.toNat = 10) || decide (c.toNat = 13)

/-- Trim surrounding whitespace (executable counterpart of `String.trim`). -/
def trimStr (s : String) : String :=
  String.mk (((s.toList.dropWhile isWSCh).reverse.dropWhile isWSCh).reverse)

def nonEmptyOpt (s : String) : Option String :=
  if s = "" then none else some s

/-- Modelled from the spec: `parse-author` — best-effort split of a free-text
author string into name/email/url; missing parts are left out, never an error. -/
def parseAuthor (s : String) : AuthorInfo :=
  let l := s.toList
  { name := nonEmptyOpt (trimStr (String.mk (l.takeWhile (fun c => c != '<' && c != '('))))
    email := (sectionBetween l '<' '>').bind (fun e => nonEmptyOpt (trimStr e))
    url := (sectionBetween l '(' ')').bind (fun u => nonEmptyOpt (trimStr u)) }

/-! ## Data model

`Pkg` is the shape of the project manifest (`package.json`) as far as the
generator reads and writes it.  `Author` mirrors the three JSON shapes the
code distinguishes (`_.isObject` / `_.isString` / otherwise); `DepVal`
mirrors the `typeof pkg[dep] === "object"` test in the writing phase
(`obj` = a JSON mapping, `prim` = any non-object value). -/

inductive Author
  | absent
  | str (s : String)
  | obj (name email url : Option String)
deriving DecidableEq, Repr

def Author.isObj : Author → Bool
  | .obj _ _ _ => true
  | _ => false

inductive DepVal
  | obj (entries : List (String × String))
  | prim (s : String)
deriving DecidableEq, Repr

structure Pkg where
  name : Option String := none
  version : Option String := none
  description : Option String := none
  homepage : Option String := none
  main : Option String := none
  license : Option String := none
  author : Author := .absent
  files : Option (List String) := none
  keywords : Option (List String) := none
  dependencies : Option DepVal := none
  devDependencies : Option DepVal := none
  peerDependencies : Option DepVal := none
  optionalDependencies : Option DepVal := none
deriving DecidableEq, Repr

/-- The destination filesystem, as the set of relative paths that exist
(`this.fs.exists(this.destinationPath(p))`). -/
def FS := List String

def fsExists (fs : FS) (p : String) : Bool := List.contains fs p

/-- `this.props`: the partial resolved configuration.  A `none` field is
JavaScript `undefined`. -/
structure Props where
  name : Option String := none
  description : Option String := none
  version : Option String := none
  homepage : Option String := none
  authorName : Option String := none
  authorEmail : Option String := none
  authorUrl : Option String := none
  serverType : Option String := none
  pwa : Option Bool := none
  autoSsr : Option Bool := none
  quoteType : Option String := none
  createDirectory : Option Bool := none
  keywords : Option (List String) := none
deriving DecidableEq, Repr

def ExpressJS : String := "ExpressJS"
def HapiJS : String := "HapiJS"
def KoaJS : String := "KoaJS"

/-- The single-quote marker `"'"` (`this.props.quoteType === "'"`). -/
def singleQuote : String := String.singleton (Char.ofNat 39)

/-- The double-quote marker `"\""`. -/
def doubleQuote : String := "\""

/-! ## `initializing` -/

/-- Lines 65-67: `this.pkg.keywords = this.pkg.keywords.filter((x) => x)` —
drop falsy entries from the in-memory manifest keywords, when present. -/
def filterPkgKeywords (p : Pkg) : Pkg :=
  match p.keywords with
  | none => p
  | some l => { p with keywords := some (l.filter (fun x => x != "")) }

/-- Lines 82-83: framework detection by server entry file, express checked
before koa, HapiJS otherwise. -/
def detectServerType (fs : FS) : String :=
  if fsExists fs "src/server/express-server.js" then ExpressJS
  else if fsExists fs "src/server/koa-server.js" then KoaJS
  else HapiJS

/-- Lines 69-93: pre-set `this.props` from the manifest; when the author field
is a structured object, additionally run the filesystem feature detection and
force `createDirectory` to false; when it is a string, parse it. -/
def initProps (pkg : Pkg) (fs : FS) : Props :=
  let base : Props :=
    { name := pkg.name, description := pkg.description,
      version := pkg.version, homepage := pkg.homepage }
  match pkg.author with
  | .obj n e u =>
    { base with
      authorName := n, authorEmail := e, authorUrl := u,
      createDirectory := some false,
      serverType := some (detectServerType fs),
      pwa := some (fsExists fs "client/sw-registration.js"),
      autoSsr := some (fsExists fs "server/plugins/autossr.js"),
      quoteType := some (if fsExists fs ".eslintrc" then singleQuote else doubleQuote) }
  | .str s =>
    let info := parseAuthor s
    { base with authorName := info.name, authorEmail := info.email, authorUrl := info.url }
  | .absent => base

/-! ## `prompting.askFor` -/

/-- Lines 103-105: `if (this.pkg.name || this.options.name)
this.props.name = this.pkg.name || _.kebabCase(this.options.name)`.
(lodash `kebabCase` of `undefined` is `""`.) -/
def askForName (pkg : Pkg) (optName : Option String) (props : Props) : Props :=
  if jsTruthyS pkg.name || jsTruthyS optName then
    { props with name := jsOrS pkg.name (some (kebabCase (optName.getD ""))) }
  else props

/-- lodash `_.isEmpty` on a possibly-undefined array. -/
def isEmptyArr : Option (List String) → Bool
  | none => true
  | some l => l.isEmpty

/-- The fixed prompt order of the `prompts` array (lines 107-196). -/
def promptOrder : List String :=
  ["name", "description", "homepage", "serverType", "authorName", "authorEmail",
   "authorUrl", "keywords", "pwa", "autoSsr", "quoteType", "createDirectory"]

/-- The `when` guard of each prompt, exactly as in the `prompts` array:
string fields prompt when falsy, `keywords` when `_.isEmpty(this.pkg.keywords)`,
and the four feature fields when `undefined`. -/
def promptWhen (pkg : Pkg) (props : Props) (field : String) : Bool :=
  if field = "name" then !(jsTruthyS props.name)
  else if field = "description" then !(jsTruthyS props.description)
  else if field = "homepage" then !(jsTruthyS props.homepage)
  else if field = "serverType" then !(jsTruthyS props.serverType)
  else if field = "authorName" then !(jsTruthyS props.authorName)
  else if field = "authorEmail" then !(jsTruthyS props.authorEmail)
  else if field = "authorUrl" then !(jsTruthyS props.authorUrl)
  else if field = "keywords" then isEmptyArr pkg.keywords
  else if field = "pwa" then props.pwa.isNone
  else if field = "autoSsr" then props.autoSsr.isNone
  else if field = "quoteType" then props.quoteType.isNone
  else if field = "createDirectory" then props.createDirectory.isNone
  else false

/-- The prompts actually issued, in order (`pkg` here is the manifest after
the `initializing` keyword filtering, `props` the props after the name
resolution step). -/
def promptedFields (pkg : Pkg) (props : Props) : List String :=
  promptOrder.filter (promptWhen pkg props)

/-- Split a character list at every comma. -/
def splitOnComma : List Char → List (List Char)
  | [] => [[]]
  | c :: rest =>
    let r := splitOnComma rest
    if c == ',' then [] :: r
    else
      match r with
      | [] => [[c]]
      | h :: t => (c :: h) :: t

/-- The `filter` transform of the keywords prompt (line 164):
split on `/\s*,\s*/g` and drop falsy segments (whitespace is consumed only
around the commas, as by the regex separator). -/
def promptKeywordsFilter (s : String) : List String :=
  let parts := splitOnComma s.toList
  let n := parts.length
  ((parts.enum.map (fun pi =>
      let l := if pi.1 = 0 then pi.2 else pi.2.dropWhile isWSCh
      let l := if pi.1 = n - 1 then l else (l.reverse.dropWhile isWSCh).reverse
      String.mk l))).filter (fun x => x != "")

/-- JavaScript `_.merge(this.props, answers)` (line 199): a defined answer
wins over the pre-set value, an `undefined` one is skipped. -/
def mergeO {α : Type} (a b : Option α) : Option α :=
  if b.isSome then b else a

def mergeProps (a b : Props) : Props :=
  { name := mergeO a.name b.name,
    description := mergeO a.description b.description,
    version := mergeO a.version b.version,
    homepage := mergeO a.homepage b.homepage,
    authorName := mergeO a.authorName b.authorName,
    authorEmail := mergeO a.authorEmail b.authorEmail,
    authorUrl := mergeO a.authorUrl b.authorUrl,
    serverType := mergeO a.serverType b.serverType,
    pwa := mergeO a.pwa b.pwa,
    autoSsr := mergeO a.autoSsr b.autoSsr,
    quoteType := mergeO a.quoteType b.quoteType,
    createDirectory := mergeO a.createDirectory b.createDirectory,
    keywords := mergeO a.keywords b.keywords }

/-! ## The prompt callback and the order of root-sensitive effects

Lines 198-206 and the `writing` phase, reduced to the sequence of effects
whose ordering the spec cares about: the destination-root relocation, the
State Store write (`this.config.set('serverType', ...)`), and the manifest
write.  Each event is recorded together with the destination root in force
when it runs. -/

inductive Act
  | relocate (target : String)
  | configSet (key : String) (value : Option String)
  | writeManifest
deriving DecidableEq, Repr

def Act.isRelocate : Act → Bool
  | .relocate _ => true
  | _ => false

/-- Line 201: `destinationPath() + '/' + _.kebabCase(_.deburr(this.props.name))`. -/
def relocTarget (root : String) (props : Props) : String :=
  root ++ "/" ++ kebabCase (deburr (props.name.getD ""))

/-- The relocation (if `createDirectory` is truthy), then the State Store
write, then the manifest write of the `writing` phase, each tagged with the
destination root current at that point. -/
def runTrace (props : Props) (root : String) : List (String × Act) :=
  let root1 := if jsTruthyB props.createDirectory then relocTarget root props else root
  (if jsTruthyB props.createDirectory
    then [(root1, Act.relocate (relocTarget root props))] else [])
  ++ [(root1, Act.configSet "serverType" props.serverType)]
  ++ [(root1, Act.writeManifest)]

/-! ## `writing`: glob exclusion rules -/

/-- Lines 239-247: `ignoreArray` as a function of the stored
`this.config.get('serverType')` value (set during prompting). -/
def ignoreArray (storedServerType : Option String) : List String :=
  if storedServerType = some HapiJS then
    ["**/src/server/express-server.js", "**/src/server/koa-server.js"]
  else if storedServerType = some ExpressJS then
    ["**/src/server/koa-server.js"]
  else
    ["**/src/server/express-server.js"]

/-- `pre` is a prefix of the first list. -/
def listStartsWith : List Char → List Char → Bool
  | _, [] => true
  | [], _ :: _ => false
  | c :: cs, p :: ps => c == p && listStartsWith cs ps

def strStartsWith (s pre : String) : Bool := listStartsWith s.toList pre.toList

def strEndsWith (s suf : String) : Bool :=
  listStartsWith s.toList.reverse suf.toList.reverse

def strDrop (s : String) (n : Nat) : String := String.mk (s.toList.drop n)

/-- Matching of the `**/rest` glob patterns used in `ignoreArray` against a
relative path: `**` matches zero or more leading directories. -/
def globExcludes (pat path : String) : Bool :=
  if strStartsWith pat "**/" then
    let rest := strDrop pat 3
    path == rest || strEndsWith path ("/" ++ rest)
  else path == pat

/-- Applying the glob-exclusion rules to a file tree: the files that survive. -/
def applyIgnore (pats : List String) (tree : List String) : List String :=
  tree.filter (fun p => !(pats.any (fun pat => globExcludes pat p)))

/-! ## `writing`: the manifest patch

Lines 263-303, field by field.  `odefS`/`odefArr`/`defaultsAuthor` embed
lodash `_.defaultsDeep(currentPkg, {...})` (fill only `undefined` fields; for
arrays, fill only missing indices; never descend into a primitive), and
`mergeS`/`mergeArr`/`mergeAuthor`/`mergeDep` embed
`extend({}, defaultPkg, updatePkg)` = `_.merge` (a defined source value wins;
arrays merge index-wise; objects merge key-wise). -/

/-- Lines 263-265: `currentPkg[x] = currentPkg[x] || undefined` for the six
scalar fields. -/
def jsOrUndef (o : Option String) : Option String :=
  if jsTruthyS o then o else none

def normalizeScalars (p : Pkg) : Pkg :=
  { p with
    name := jsOrUndef p.name, version := jsOrUndef p.version,
    description := jsOrUndef p.description, homepage := jsOrUndef p.homepage,
    main := jsOrUndef p.main, license := jsOrUndef p.license }

/-- `defaultsDeep` on a scalar field: keep a defined current value. -/
def odefS (cur dflt : Option String) : Option String :=
  if cur.isSome then cur else dflt

/-- `defaultsDeep` on an array field: an absent array becomes the default;
a present array only has its missing indices filled from the default. -/
def odefArr (cur : Option (List String)) (dflt : List String) : Option (List String) :=
  match cur with
  | none => some dflt
  | some l => some (l ++ dflt.drop l.length)

/-- `defaultsDeep` on the author field: fill an absent author with the default
object, fill only the `undefined` subfields of a present object, and leave a
string author untouched (a defined primitive is not descended into). -/
def defaultsAuthor (cur : Author) (n e u : Option String) : Author :=
  match cur with
  | .absent => .obj n e u
  | .str s => .str s
  | .obj cn ce cu => .obj (odefS cn n) (odefS ce e) (odefS cu u)

/-- Line 280-283: `path.join(this.options.projectRoot, 'index.js')` with
backslashes normalized to `/`. -/
def pathJoinMain (projectRoot : String) : String := projectRoot ++ "/index.js"

/-- Lines 267-285: `updatePkg = _.defaultsDeep(currentPkg, {...})` (after the
scalar normalization of lines 263-265). -/
def updatePkgOf (cur : Pkg) (props : Props) (projectRoot : String) : Pkg :=
  let c := normalizeScalars cur
  { c with
    name := odefS c.name (some (kebabCase (props.name.getD ""))),
    version := odefS c.version (some "0.0.1"),
    description := odefS c.description props.description,
    homepage := odefS c.homepage props.homepage,
    author := defaultsAuthor c.author props.authorName props.authorEmail props.authorUrl,
    files := odefArr c.files [projectRoot],
    main := odefS c.main (some (pathJoinMain projectRoot)),
    keywords := odefArr c.keywords [] }

/-- `_.merge` on a scalar field: the source value wins when defined. -/
def mergeS (a b : Option String) : Option String :=
  if b.isSome then b else a

/-- `_.merge` on an array field: index-wise, source index wins. -/
def mergeArr (a b : Option (List String)) : Option (List String) :=
  match a, b with
  | none, b => b
  | some x, none => some x
  | some x, some y => some (y ++ x.drop y.length)

/-- `_.merge` on the author field. -/
def mergeAuthor (a b : Author) : Author :=
  match a, b with
  | a, .absent => a
  | _, .str s => .str s
  | .obj an ae au, .obj bn be bu => .obj (mergeS an bn) (mergeS ae be) (mergeS au bu)
  | _, .obj bn be bu => .obj bn be bu

/-- `_.merge` of one JSON mapping into another: the target's keys in order
with values overridden by the source, then the source's new keys in order. -/
def mergeAssocInto (a b : List (String × String)) : List (String × String) :=
  a.map (fun kv => match b.lookup kv.1 with | some v => (kv.1, v) | none => kv)
  ++ b.filter (fun kv => !(a.any (fun av => av.1 == kv.1)))

/-- `_.merge` on a dependency grouping. -/
def mergeDep (a b : Option DepVal) : Option DepVal :=
  match a, b with
  | a, none => a
  | _, some (.prim s) => some (.prim s)
  | some (.obj m), some (.obj l) => some (.obj (mergeAssocInto m l))
  | _, some (.obj l) => some (.obj l)

/-- Line 287: `var pkg = extend({}, defaultPkg, updatePkg)`. -/
def mergePkg (a b : Pkg) : Pkg :=
  { name := mergeS a.name b.name,
    version := mergeS a.version b.version,
    description := mergeS a.description b.description,
    homepage := mergeS a.homepage b.homepage,
    main := mergeS a.main b.main,
    license := mergeS a.license b.license,
    author := mergeAuthor a.author b.author,
    files := mergeArr a.files b.files,
    keywords := mergeArr a.keywords b.keywords,
    dependencies := mergeDep a.dependencies b.dependencies,
    devDependencies := mergeDep a.devDependencies b.devDependencies,
    peerDependencies := mergeDep a.peerDependencies b.peerDependencies,
    optionalDependencies := mergeDep a.optionalDependencies b.optionalDependencies }

/-- lodash `_.uniq`: keep the first occurrence of each element. -/
def uniqAux (seen : List String) : List String → List String
  | [] => []
  | x :: xs => if x ∈ seen then uniqAux seen xs else x :: uniqAux (x :: seen) xs

def jsUniq (l : List String) : List String := uniqAux [] l

/-- Lines 290-292: `if (this.props.keywords)
pkg.keywords = _.uniq(this.props.keywords.concat(pkg.keywords)).filter((x) => x)`. -/
def combineKeywords (props : Props) (p : Pkg) : Pkg :=
  match props.keywords with
  | none => p
  | some ws =>
    { p with keywords := some ((jsUniq (ws ++ p.keywords.getD [])).filter (fun x => x != "")) }

/-- Lexicographic comparison of character lists by code point (the order
used by JavaScript `Array.prototype.sort` on the ASCII keys involved). -/
def charListLe : List Char → List Char → Bool
  | [], _ => true
  | _ :: _, [] => false
  | a :: as, b :: bs =>
    decide (a.toNat < b.toNat) || (decide (a.toNat = b.toNat) && charListLe as bs)

/-- Lexicographic string order. -/
def strLe (a b : String) : Bool := charListLe a.toList b.toList

def insertKey (x : String) : List String → List String
  | [] => [x]
  | y :: ys => if strLe x y then x :: y :: ys else y :: insertKey x ys

/-- `Object.keys(...).sort()`: insertion sort by `strLe`. -/
def sortKeys : List String → List String
  | [] => []
  | k :: ks => insertKey k (sortKeys ks)

/-- Lines 294-300: `_.pick(pkg[dep], Object.keys(pkg[dep]).sort())` —
re-emit the entries following the lexicographically sorted key list. -/
def sortDepEntries (l : List (String × String)) : List (String × String) :=
  (sortKeys (l.map Prod.fst)).filterMap
    (fun k => (l.lookup k).map (fun v => (k, v)))

/-- `sortDep`: only applied when the grouping is a JSON mapping
(`typeof pkg[dep] === "object"`); otherwise left untouched. -/
def sortDepVal : Option DepVal → Option DepVal
  | some (.obj l) => some (.obj (sortDepEntries l))
  | x => x

def sortDeps (p : Pkg) : Pkg :=
  { p with
    dependencies := sortDepVal p.dependencies,
    devDependencies := sortDepVal p.devDependencies,
    peerDependencies := sortDepVal p.peerDependencies,
    optionalDependencies := sortDepVal p.optionalDependencies }

/-- The manifest just before dependency sorting: the `extend` of the rendered
template manifest (`defaultPkg`) with `updatePkg`, plus the keyword
combination. -/
def mergedPkg (currentPkg defaultPkg : Pkg) (props : Props) (projectRoot : String) : Pkg :=
  combineKeywords props (mergePkg defaultPkg (updatePkgOf currentPkg props projectRoot))

/-- Line 303: the manifest written to `package.json`. -/
def writtenPkg (currentPkg defaultPkg : Pkg) (props : Props) (projectRoot : String) : Pkg :=
  sortDeps (mergedPkg currentPkg defaultPkg props projectRoot)

/-! ## `writing` root configs and `end` formatter gating -/

/-- Lines 305-306: `['gulpfile.js', 'config', 'test']` plus `.eslintrc`
exactly when the single-quote style was chosen. -/
def rootConfigsToCopy (quoteType : Option String) : List String :=
  ["gulpfile.js", "config", "test"] ++
    (if quoteType = some singleQuote then [".eslintrc"] else [])

/-- Lines 433-436: the eslint `--fix` pass runs iff
`this.props.quoteType === "'"`. -/
def runsFormatter (quoteType : Option String) : Bool :=
  quoteType = some singleQuote

/-! ## Named inputs used by concrete witnesses and counterexamples -/

/-- The two framework-specific server entry files that the writing-phase
glob rules ever mention. -/
def frameworkEntryFiles : List String :=
  ["src/server/express-server.js", "src/server/koa-server.js"]

/-- Modelled from the spec: the section-8 fixture tree containing all three
frameworks" server entry files.  The template tree itself is not part of
src/; per section 9 the Hapi entry file does not exist there, and its name
here is never mentioned by the writing-phase exclusion rules. -/
def threeEntryTree : List String :=
  ["src/server/hapi-server.js", "src/server/express-server.js", "src/server/koa-server.js"]

def c2ObjPkg : Pkg := { author := .obj (some "Jane") none none }

def c4Props : Props :=
  { name := some "My Cool App", createDirectory := some true, serverType := some HapiJS }

def c5Cur : Pkg :=
  { name := some "my-app", version := some "2.3.4", description := some "an app",
    homepage := some "https://example.org", main := some "lib/index.js",
    license := some "MIT" }

def c8Cur : Pkg :=
  { dependencies := some (DepVal.obj [("zeta", "1"), ("alpha", "2"), ("mu", "3")]) }

def c10ObjPkg : Pkg := { author := .obj (some "Jane") none none }

/-! ## Helper lemmas -/

theorem filterPkgKeywords_name (p : Pkg) : (filterPkgKeywords p).name = p.name := by
  cases hp : p.keywords <;> simp [filterPkgKeywords, hp]

theorem filterPkgKeywords_author (p : Pkg) : (filterPkgKeywords p).author = p.author := by
  cases hp : p.keywords <;> simp [filterPkgKeywords, hp]

/-- The name-resolution step only writes the `name` field of the props. -/
theorem askForName_only_name (pkg : Pkg) (optName : Option String) (props : Props) :
    (askForName pkg optName props).description = props.description ∧
    (askForName pkg optName props).homepage = props.homepage ∧
    (askForName pkg optName props).serverType = props.serverType ∧
    (askForName pkg optName props).authorName = props.authorName ∧
    (askForName pkg optName props).authorEmail = props.authorEmail ∧
    (askForName pkg optName props).authorUrl = props.authorUrl ∧
    (askForName pkg optName props).pwa = props.pwa ∧
    (askForName pkg optName props).autoSsr = props.autoSsr ∧
    (askForName pkg optName props).quoteType = props.quoteType ∧
    (askForName pkg optName props).createDirectory = props.createDirectory := by
  unfold askForName
  split <;> simp

/-- The keyword-combination step leaves every non-keyword field unchanged. -/
theorem combineKeywords_frame (props : Props) (p : Pkg) :
    (combineKeywords props p).name = p.name ∧
    (combineKeywords props p).version = p.version ∧
    (combineKeywords props p).description = p.description ∧
    (combineKeywords props p).homepage = p.homepage ∧
    (combineKeywords props p).main = p.main ∧
    (combineKeywords props p).license = p.license ∧
    (combineKeywords props p).files = p.files := by
  cases h : props.keywords <;> simp [combineKeywords, h]

/-- A scalar manifest field that is truthy survives the normalize,
defaultsDeep and merge pipeline unchanged, whatever the template manifest
holds. -/
theorem scalar_pipeline (a cur dflt : Option String) (h : jsTruthyS cur = true) :
    mergeS a (odefS (jsOrUndef cur) dflt) = cur := by
  cases hc : cur with
  | none => rw [hc] at h; simp [jsTruthyS] at h
  | some s =>
    rw [hc] at h
    have hs : ¬ s = "" := by simpa [jsTruthyS] using h
    simp [jsOrUndef, jsTruthyS, odefS, mergeS, hs]

theorem writtenPkg_name (cur d : Pkg) (props : Props) (pr : String) :
    (writtenPkg cur d props pr).name
      = mergeS d.name (odefS (jsOrUndef cur.name) (some (kebabCase (props.name.getD "")))) :=
  calc (writtenPkg cur d props pr).name
      = (combineKeywords props (mergePkg d (updatePkgOf cur props pr))).name := rfl
    _ = (mergePkg d (updatePkgOf cur props pr)).name := (combineKeywords_frame props _).1
    _ = mergeS d.name (odefS (jsOrUndef cur.name) (some (kebabCase (props.name.getD "")))) := rfl

theorem writtenPkg_version (cur d : Pkg) (props : Props) (pr : String) :
    (writtenPkg cur d props pr).version
      = mergeS d.version (odefS (jsOrUndef cur.version) (some "0.0.1")) :=
  calc (writtenPkg cur d props pr).version
      = (combineKeywords props (mergePkg d (updatePkgOf cur props pr))).version := rfl
    _ = (mergePkg d (updatePkgOf cur props pr)).version := (combineKeywords_frame props _).2.1
    _ = _ := rfl

theorem writtenPkg_description (cur d : Pkg) (props : Props) (pr : String) :
    (writtenPkg cur d props pr).description
      = mergeS d.description (odefS (jsOrUndef cur.description) props.description) :=
  calc (writtenPkg cur d props pr).description
      = (combineKeywords props (mergePkg d (updatePkgOf cur props pr))).description := rfl
    _ = (mergePkg d (updatePkgOf cur props pr)).description := (combineKeywords_frame props _).2.2.1
    _ = _ := rfl

theorem writtenPkg_homepage (cur d : Pkg) (props : Props) (pr : String) :
    (writtenPkg cur d props pr).homepage
      = mergeS d.homepage (odefS (jsOrUndef cur.homepage) props.homepage) :=
  calc (writtenPkg cur d props pr).homepage
      = (combineKeywords props (mergePkg d (updatePkgOf cur props pr))).homepage := rfl
    _ = (mergePkg d (updatePkgOf cur props pr)).homepage := (combineKeywords_frame props _).2.2.2.1
    _ = _ := rfl

theorem writtenPkg_main (cur d : Pkg) (props : Props) (pr : String) :
    (writtenPkg cur d props pr).main
      = mergeS d.main (odefS (jsOrUndef cur.main) (some (pathJoinMain pr))) :=
  calc (writtenPkg cur d props pr).main
      = (combineKeywords props (mergePkg d (updatePkgOf cur props pr))).main := rfl
    _ = (mergePkg d (updatePkgOf cur props pr)).main := (combineKeywords_frame props _).2.2.2.2.1
    _ = _ := rfl

theorem writtenPkg_license (cur d : Pkg) (props : Props) (pr : String) :
    (writtenPkg cur d props pr).license
      = mergeS d.license (jsOrUndef cur.license) :=
  calc (writtenPkg cur d props pr).license
      = (combineKeywords props (mergePkg d (updatePkgOf cur props pr))).license := rfl
    _ = (mergePkg d (updatePkgOf cur props pr)).license := (combineKeywords_frame props _).2.2.2.2.2.1
    _ = _ := rfl

theorem writtenPkg_files (cur d : Pkg) (props : Props) (pr : String) :
    (writtenPkg cur d props pr).files
      = mergeArr d.files (odefArr cur.files [pr]) :=
  calc (writtenPkg cur d props pr).files
      = (combineKeywords props (mergePkg d (updatePkgOf cur props pr))).files := rfl
    _ = (mergePkg d (updatePkgOf cur props pr)).files := (combineKeywords_frame props _).2.2.2.2.2.2
    _ = _ := rfl

theorem writtenPkg_keywords_nopr (cur d : Pkg) (props : Props) (pr : String)
    (hpk : props.keywords = none) :
    (writtenPkg cur d props pr).keywords
      = mergeArr d.keywords (odefArr cur.keywords []) := by
  calc (writtenPkg cur d props pr).keywords
      = (combineKeywords props (mergePkg d (updatePkgOf cur props pr))).keywords := rfl
    _ = (mergePkg d (updatePkgOf cur props pr)).keywords := by
          simp [combineKeywords, hpk]
    _ = _ := rfl

theorem mem_uniqAux {z : String} : ∀ {seen l : List String},
    z ∈ uniqAux seen l → z ∈ l ∧ z ∉ seen := by
  intro seen l
  induction l generalizing seen with
  | nil => simp [uniqAux]
  | cons x xs ih =>
    simp only [uniqAux]
    split
    · intro h
      have hz := ih h
      exact ⟨List.mem_cons_of_mem _ hz.1, hz.2⟩
    · rename_i hx
      intro h
      rcases List.mem_cons.mp h with rfl | h2
      · exact ⟨List.mem_cons_self _ _, hx⟩
      · have hz := ih h2
        exact ⟨List.mem_cons_of_mem _ hz.1, fun hs => hz.2 (List.mem_cons_of_mem _ hs)⟩

theorem nodup_uniqAux : ∀ {seen l : List String}, (uniqAux seen l).Nodup := by
  intro seen l
  induction l generalizing seen with
  | nil => simp [uniqAux]
  | cons x xs ih =>
    simp only [uniqAux]
    split
    · exact ih
    · refine List.Nodup.cons (fun hmem => ?_) ih
      exact (mem_uniqAux hmem).2 (List.mem_cons_self _ _)

theorem charListLe_trans : ∀ (a b c : List Char),
    charListLe a b = true → charListLe b c = true → charListLe a c = true
  | [], _, _, _, _ => rfl
  | _ :: _, [], _, h, _ => by simp [charListLe] at h
  | _ :: _, _ :: _, [], _, h => by simp [charListLe] at h
  | a :: as, b :: bs, c :: cs, h1, h2 => by
    simp only [charListLe, Bool.or_eq_true, Bool.and_eq_true, decide_eq_true_eq] at h1 h2 ⊢
    rcases h1 with h1 | ⟨h1e, h1r⟩
    · rcases h2 with h2 | ⟨h2e, h2r⟩
      · exact Or.inl (by omega)
      · exact Or.inl (by omega)
    · rcases h2 with h2 | ⟨h2e, h2r⟩
      · exact Or.inl (by omega)
      · exact Or.inr ⟨by omega, charListLe_trans as bs cs h1r h2r⟩

theorem charListLe_total : ∀ (a b : List Char), charListLe a b = true ∨ charListLe b a = true
  | [], _ => Or.inl rfl
  | _ :: _, [] => Or.inr rfl
  | a :: as, b :: bs => by
    simp only [charListLe, Bool.or_eq_true, Bool.and_eq_true, decide_eq_true_eq]
    rcases Nat.lt_trichotomy a.toNat b.toNat with h | h | h
    · exact Or.inl (Or.inl h)
    · rcases charListLe_total as bs with ih | ih
      · exact Or.inl (Or.inr ⟨h, ih⟩)
      · exact Or.inr (Or.inr ⟨h.symm, ih⟩)
    · exact Or.inr (Or.inl h)

theorem strLe_trans (a b c : String) (h1 : strLe a b = true) (h2 : strLe b c = true) :
    strLe a c = true :=
  charListLe_trans a.toList b.toList c.toList h1 h2

theorem strLe_total (a b : String) : strLe a b = true ∨ strLe b a = true :=
  charListLe_total a.toList b.toList

theorem mem_insertKey {z x : String} : ∀ {l : List String},
    z ∈ insertKey x l → z = x ∨ z ∈ l := by
  intro l
  induction l with
  | nil => intro h; simp [insertKey] at h; exact Or.inl h
  | cons y ys ih =>
    intro h
    simp only [insertKey] at h
    split at h
    · rcases List.mem_cons.mp h with rfl | h2
      · exact Or.inl rfl
      · exact Or.inr h2
    · rcases List.mem_cons.mp h with rfl | h2
      · exact Or.inr (List.mem_cons_self _ _)
      · rcases ih h2 with h3 | h3
        · exact Or.inl h3
        · exact Or.inr (List.mem_cons_of_mem _ h3)

theorem pairwise_insertKey (x : String) : ∀ {l : List String},
    l.Pairwise (fun a b => strLe a b = true) →
    (insertKey x l).Pairwise (fun a b => strLe a b = true) := by
  intro l
  induction l with
  | nil => intro _; simp [insertKey]
  | cons y ys ih =>
    intro h
    rcases List.pairwise_cons.mp h with ⟨hy, hys⟩
    simp only [insertKey]
    split
    · rename_i hxy
      refine List.pairwise_cons.mpr ⟨?_, h⟩
      intro z hz
      rcases List.mem_cons.mp hz with rfl | h2
      · exact hxy
      · exact strLe_trans x y z hxy (hy z h2)
    · rename_i hxy
      have hyx : strLe y x = true := by
        rcases strLe_total x y with h3 | h3
        · exact absurd h3 (by simpa using hxy)
        · exact h3
      refine List.pairwise_cons.mpr ⟨?_, ih hys⟩
      intro z hz
      rcases mem_insertKey hz with rfl | h2
      · exact hyx
      · exact hy z h2

theorem perm_insertKey (x : String) : ∀ (l : List String), (insertKey x l).Perm (x :: l) := by
  intro l
  induction l with
  | nil => simp [insertKey]
  | cons y ys ih =>
    simp only [insertKey]
    split
    · exact List.Perm.refl _
    · exact (List.Perm.cons y ih).trans (List.Perm.swap x y ys)

theorem sorted_sortKeys : ∀ (l : List String),
    (sortKeys l).Pairwise (fun a b => strLe a b = true)
  | [] => by simp [sortKeys]
  | k :: ks => by
    simp only [sortKeys]
    exact pairwise_insertKey k (sorted_sortKeys ks)

theorem perm_sortKeys : ∀ (l : List String), (sortKeys l).Perm l
  | [] => List.Perm.refl _
  | k :: ks => by
    simp only [sortKeys]
    exact (perm_insertKey k (sortKeys ks)).trans (List.Perm.cons k (perm_sortKeys ks))

theorem map_fst_filterMap_lookup (l : List (String × String)) : ∀ (ks : List String),
    ((ks.filterMap (fun k => (l.lookup k).map (fun v => (k, v)))).map Prod.fst)
      = ks.filter (fun k => (l.lookup k).isSome) := by
  intro ks
  induction ks with
  | nil => rfl
  | cons k kt ih =>
    cases hlk : l.lookup k <;>
      simp [List.filterMap_cons, hlk, List.filter_cons, ih]

theorem filterMap_congr_mem {α β : Type} {f g : α → Option β} :
    ∀ {l : List α}, (∀ a ∈ l, f a = g a) → l.filterMap f = l.filterMap g := by
  intro l
  induction l with
  | nil => intro _; rfl
  | cons a t ih =>
    intro h
    rw [List.filterMap_cons, List.filterMap_cons, h a (List.mem_cons_self _ _),
      ih (fun b hb => h b (List.mem_cons_of_mem _ hb))]

theorem lookup_filterMap_self : ∀ {l : List (String × String)},
    (l.map Prod.fst).Nodup →
    ((l.map Prod.fst).filterMap (fun k => (l.lookup k).map (fun v => (k, v)))) = l := by
  intro l
  induction l with
  | nil => intro _; rfl
  | cons kv t ih =>
    intro h
    obtain ⟨k, v⟩ := kv
    simp only [List.map_cons] at h ⊢
    rcases List.nodup_cons.mp h with ⟨hk, ht⟩
    have hlk : List.lookup k ((k, v) :: t) = some v := by simp [List.lookup]
    rw [List.filterMap_cons, hlk]
    show (k, v) :: (t.map Prod.fst).filterMap
        (fun x => (List.lookup x ((k, v) :: t)).map (fun w => (x, w))) = (k, v) :: t
    have hcongr : (t.map Prod.fst).filterMap
        (fun x => (List.lookup x ((k, v) :: t)).map (fun w => (x, w)))
        = (t.map Prod.fst).filterMap (fun x => (List.lookup x t).map (fun w => (x, w))) := by
      refine filterMap_congr_mem ?_
      intro a ha
      have hne : (a == k) = false := by
        have : a ≠ k := fun hek => hk (hek ▸ ha)
        simpa using this
      simp [List.lookup, hne]
    rw [hcongr, ih ht]

/-- The keys of a sorted dependency grouping are in lexicographic order. -/
theorem sorted_sortDepEntries (l : List (String × String)) :
    ((sortDepEntries l).map Prod.fst).Pairwise (fun a b => strLe a b = true) := by
  unfold sortDepEntries
  rw [map_fst_filterMap_lookup]
  exact List.Pairwise.filter _ (sorted_sortKeys _)

/-- With distinct keys (as in a JSON object), sorting a dependency grouping
is a permutation of its entries. -/
theorem perm_sortDepEntries {l : List (String × String)}
    (h : (l.map Prod.fst).Nodup) : (sortDepEntries l).Perm l := by
  unfold sortDepEntries
  have h1 := (perm_sortKeys (l.map Prod.fst)).filterMap
    (fun k => (l.lookup k).map (fun v => (k, v)))
  exact h1.trans (by rw [lookup_filterMap_self h])

/-! ## Claim C1 -/

/-- C1, counterexample: with manifest name "existing-app" and CLI name
"My CLI App" both present, the resolved name is the manifest value — neither
the CLI-supplied value nor its kebab-cased slug — so the explicit CLI option
does not outrank the name already present in the manifest. -/
theorem c1_cli_name_counterexample :
    (askForName { name := some "existing-app" } (some "My CLI App")
        (initProps { name := some "existing-app" } [])).name = some "existing-app"
    ∧ some "existing-app" ≠ some "My CLI App"
    ∧ some "existing-app" ≠ some (kebabCase "My CLI App") := by decide

/-- C1 as amended: for the project-name field, the value already present in
the manifest outranks the explicit CLI name option; with no manifest name,
the kebab-cased CLI name is used.  The name prompt is skipped whenever the
manifest supplies a nonempty name, or the CLI option kebab-cases to a
nonempty slug. -/
theorem c1_name_precedence (pkg : Pkg) (optName : Option String) (fs : FS) :
    (jsTruthyS pkg.name = true →
      (askForName pkg optName (initProps pkg fs)).name = pkg.name ∧
      "name" ∉ promptedFields (filterPkgKeywords pkg) (askForName pkg optName (initProps pkg fs)))
    ∧ (jsTruthyS pkg.name = false → jsTruthyS optName = true →
      (askForName pkg optName (initProps pkg fs)).name = some (kebabCase (optName.getD "")) ∧
      (kebabCase (optName.getD "") ≠ "" →
        "name" ∉ promptedFields (filterPkgKeywords pkg) (askForName pkg optName (initProps pkg fs)))) := by
  constructor
  · intro h
    have hn : (askForName pkg optName (initProps pkg fs)).name = pkg.name := by
      unfold askForName jsOrS
      simp [h]
    refine ⟨hn, ?_⟩
    simp [promptedFields, promptOrder, promptWhen, List.mem_filter, hn, h]
  · intro h ho
    have hn : (askForName pkg optName (initProps pkg fs)).name = some (kebabCase (optName.getD "")) := by
      unfold askForName jsOrS
      simp [h, ho]
    refine ⟨hn, fun hk => ?_⟩
    have htr : jsTruthyS (askForName pkg optName (initProps pkg fs)).name = true := by
      rw [hn]; simpa [jsTruthyS] using hk
    simp [promptedFields, promptOrder, promptWhen, List.mem_filter, htr]

/-- C1, witness for the amended claim at a concrete input. -/
theorem c1_name_precedence_witness :
    (askForName { name := some "existing-app" } (some "My CLI App")
        (initProps { name := some "existing-app" } [])).name = some "existing-app"
    ∧ "name" ∉ promptedFields (filterPkgKeywords { name := some "existing-app" })
        (askForName { name := some "existing-app" } (some "My CLI App")
          (initProps { name := some "existing-app" } [])) :=
  (c1_name_precedence { name := some "existing-app" } (some "My CLI App") []).1 (by decide)

/-! ## Claim C2 -/

/-- C2, counterexample: a destination whose manifest has no author field but
whose filesystem already contains the Express entry file resolves serverType
to nothing (detection never runs) and still issues the serverType prompt —
detection is not independent of the other manifest fields. -/
theorem c2_detection_counterexample :
    (initProps {} ["src/server/express-server.js"]).serverType = none ∧
    "serverType" ∈ promptedFields (filterPkgKeywords {})
      (askForName {} none (initProps {} ["src/server/express-server.js"])) := by decide

/-- C2 as amended: when the existing manifest has a structured author object,
serverType is resolved from the filesystem markers — the Express entry file
first, then the Koa entry file, HapiJS otherwise — the serverType prompt is
not issued, and detection is total (absence of a marker is just a signal,
never an error). -/
theorem c2_detection (pkg : Pkg) (fs : FS) (optName : Option String)
    (n e u : Option String) (h : pkg.author = .obj n e u) :
    (initProps pkg fs).serverType = some (detectServerType fs)
    ∧ "serverType" ∉ promptedFields (filterPkgKeywords pkg) (askForName pkg optName (initProps pkg fs))
    ∧ (fsExists fs "src/server/express-server.js" = true → detectServerType fs = ExpressJS)
    ∧ (fsExists fs "src/server/express-server.js" = false →
        fsExists fs "src/server/koa-server.js" = true → detectServerType fs = KoaJS)
    ∧ (fsExists fs "src/server/express-server.js" = false →
        fsExists fs "src/server/koa-server.js" = false → detectServerType fs = HapiJS) := by
  have h1 : (initProps pkg fs).serverType = some (detectServerType fs) := by
    unfold initProps; rw [h]
  have htr : jsTruthyS (some (detectServerType fs)) = true := by
    unfold detectServerType
    split
    · decide
    · split <;> decide
  refine ⟨h1, ?_, ?_, ?_, ?_⟩
  · have hst : (askForName pkg optName (initProps pkg fs)).serverType
        = some (detectServerType fs) := by
      rw [(askForName_only_name pkg optName _).2.2.1, h1]
    simp [promptedFields, promptOrder, promptWhen, List.mem_filter, hst, htr]
  · intro hx; unfold detectServerType; simp [hx]
  · intro hx hk; unfold detectServerType; simp [hx, hk]
  · intro hx hk; unfold detectServerType; simp [hx, hk]

/-- C2, witness: a structured-author manifest over a destination holding the
Express entry file resolves serverType to ExpressJS without prompting. -/
theorem c2_detection_witness :
    (initProps c2ObjPkg ["src/server/express-server.js"]).serverType
      = some (detectServerType ["src/server/express-server.js"])
    ∧ "serverType" ∉ promptedFields (filterPkgKeywords c2ObjPkg)
        (askForName c2ObjPkg none (initProps c2ObjPkg ["src/server/express-server.js"]))
    ∧ detectServerType ["src/server/express-server.js"] = ExpressJS := by
  have h := c2_detection c2ObjPkg ["src/server/express-server.js"] none
    (some "Jane") none none rfl
  exact ⟨h.1, h.2.1, h.2.2.1 (by decide)⟩

/-! ## Claim C3 -/

/-- C3, counterexample: on the spec fixture tree holding all three entry
files, the ExpressJS rule set leaves two entry files (the Hapi entry is never
excluded by any rule), not exactly one. -/
theorem c3_three_file_counterexample :
    applyIgnore (ignoreArray (some ExpressJS)) threeEntryTree
      = ["src/server/hapi-server.js", "src/server/express-server.js"]
    ∧ (applyIgnore (ignoreArray (some ExpressJS)) threeEntryTree).length ≠ 1 := by decide

/-- C3 as amended: over the two framework-specific entry files that actually
exist in the template tree, each rule set excludes exactly the non-chosen
ones and never the chosen framework entry: HapiJS excludes both (its server
is not a separate entry file, so none remains), ExpressJS keeps only the
Express entry, KoaJS keeps only the Koa entry. -/
theorem c3_exclusion_rules :
    applyIgnore (ignoreArray (some HapiJS)) frameworkEntryFiles = []
    ∧ applyIgnore (ignoreArray (some ExpressJS)) frameworkEntryFiles
        = ["src/server/express-server.js"]
    ∧ applyIgnore (ignoreArray (some KoaJS)) frameworkEntryFiles
        = ["src/server/koa-server.js"]
    ∧ (ignoreArray (some ExpressJS)).all
        (fun pat => !globExcludes pat "src/server/express-server.js") = true
    ∧ (ignoreArray (some KoaJS)).all
        (fun pat => !globExcludes pat "src/server/koa-server.js") = true := by
  decide

/-! ## Claim C4 -/

/-- C4: whenever createDirectory resolves truthy, the run trace relocates the
destination root first — to the kebab-cased, deburred project name under the
old root — and only then performs the State Store write and the manifest
write, both against the relocated root. -/
theorem c4_relocation_order (props : Props) (root : String)
    (h : props.createDirectory = some true) :
    runTrace props root =
      [(relocTarget root props, Act.relocate (relocTarget root props)),
       (relocTarget root props, Act.configSet "serverType" props.serverType),
       (relocTarget root props, Act.writeManifest)]
    ∧ relocTarget root props = root ++ "/" ++ kebabCase (deburr (props.name.getD "")) := by
  unfold runTrace
  simp [h, jsTruthyB, relocTarget]

/-- C4, witness: project name "My Cool App" relocates to my-cool-app before
the State Store and manifest writes. -/
theorem c4_relocation_order_witness :
    runTrace c4Props "/work" =
      [("/work/my-cool-app", Act.relocate "/work/my-cool-app"),
       ("/work/my-cool-app", Act.configSet "serverType" (some HapiJS)),
       ("/work/my-cool-app", Act.writeManifest)] := by
  have h := (c4_relocation_order c4Props "/work" rfl).1
  rw [h]; decide

/-! ## Claim C5 -/

/-- C5, counterexample: a manifest whose main field is present as the empty
string and whose files field is present as the empty array still has both
structural defaults supplied, so the structural fields are not supplied only
when absent. -/
theorem c5_manifest_counterexample :
    (writtenPkg { main := some "", files := some [] } {} {} "server").main
      = some "server/index.js"
    ∧ (writtenPkg { main := some "", files := some [] } {} {} "server").files
      = some ["server"]
    ∧ some "" ≠ (none : Option String) ∧ some ([] : List String) ≠ none := by decide

/-- C5 as amended: every scalar field (name, version, description, homepage,
main, license) present and non-empty in the existing manifest is preserved
verbatim through the patch, whatever the template manifest and prompted
values; files, main, and the empty keywords baseline are supplied exactly
when absent or empty/falsy in the existing manifest (the template manifest
supplying neither files nor keywords, and no prompted keywords). -/
theorem c5_manifest_patch (cur defaultPkg : Pkg) (props : Props) (pr : String)
    (hf : defaultPkg.files = none) (hk : defaultPkg.keywords = none)
    (hpk : props.keywords = none) :
    (jsTruthyS cur.name = true → (writtenPkg cur defaultPkg props pr).name = cur.name)
    ∧ (jsTruthyS cur.version = true → (writtenPkg cur defaultPkg props pr).version = cur.version)
    ∧ (jsTruthyS cur.description = true →
        (writtenPkg cur defaultPkg props pr).description = cur.description)
    ∧ (jsTruthyS cur.homepage = true → (writtenPkg cur defaultPkg props pr).homepage = cur.homepage)
    ∧ (jsTruthyS cur.main = true → (writtenPkg cur defaultPkg props pr).main = cur.main)
    ∧ (jsTruthyS cur.license = true → (writtenPkg cur defaultPkg props pr).license = cur.license)
    ∧ ((cur.files = none ∨ cur.files = some []) →
        (writtenPkg cur defaultPkg props pr).files = some [pr])
    ∧ (∀ x l, cur.files = some (x :: l) → (writtenPkg cur defaultPkg props pr).files = some (x :: l))
    ∧ (cur.keywords = none → (writtenPkg cur defaultPkg props pr).keywords = some [])
    ∧ (∀ l, cur.keywords = some l → (writtenPkg cur defaultPkg props pr).keywords = some l)
    ∧ ((cur.main = none ∨ cur.main = some "") →
        (writtenPkg cur defaultPkg props pr).main = some (pathJoinMain pr)) := by
  refine ⟨?_, ?_, ?_, ?_, ?_, ?_, ?_, ?_, ?_, ?_, ?_⟩
  · intro h; rw [writtenPkg_name]; exact scalar_pipeline _ _ _ h
  · intro h; rw [writtenPkg_version]; exact scalar_pipeline _ _ _ h
  · intro h; rw [writtenPkg_description]; exact scalar_pipeline _ _ _ h
  · intro h; rw [writtenPkg_homepage]; exact scalar_pipeline _ _ _ h
  · intro h; rw [writtenPkg_main]; exact scalar_pipeline _ _ _ h
  · intro h; rw [writtenPkg_license]
    cases hc : cur.license with
    | none => rw [hc] at h; simp [jsTruthyS] at h
    | some s =>
      rw [hc] at h
      have hs : ¬ s = "" := by simpa [jsTruthyS] using h
      simp [jsOrUndef, jsTruthyS, mergeS, hs]
  · intro h; rw [writtenPkg_files, hf]
    rcases h with h | h <;> simp [h, odefArr, mergeArr]
  · intro x l h; rw [writtenPkg_files, hf]
    simp [h, odefArr, mergeArr]
  · intro h; rw [writtenPkg_keywords_nopr cur defaultPkg props pr hpk, hk]
    simp [h, odefArr, mergeArr]
  · intro l h; rw [writtenPkg_keywords_nopr cur defaultPkg props pr hpk, hk]
    simp [h, odefArr, mergeArr]
  · intro h; rw [writtenPkg_main]
    rcases h with h | h <;> simp [h, jsOrUndef, jsTruthyS, odefS, mergeS]

/-- C5, witness: a fully populated manifest keeps all six scalar fields and
receives the structural defaults it lacks. -/
theorem c5_manifest_patch_witness :
    (writtenPkg c5Cur {} {} "server").name = some "my-app"
    ∧ (writtenPkg c5Cur {} {} "server").description = some "an app"
    ∧ (writtenPkg c5Cur {} {} "server").main = some "lib/index.js"
    ∧ (writtenPkg c5Cur {} {} "server").files = some ["server"]
    ∧ (writtenPkg c5Cur {} {} "server").keywords = some [] := by
  have h := c5_manifest_patch c5Cur {} {} "server" rfl rfl rfl
  exact ⟨h.1 (by decide), h.2.2.1 (by decide), h.2.2.2.2.1 (by decide),
    h.2.2.2.2.2.2.1 (Or.inl rfl), h.2.2.2.2.2.2.2.2.1 rfl⟩

/-! ## Claim C6 -/

/-- C6, counterexample: when no keywords prompt answer exists (the manifest
already had nonempty keywords, so the prompt was skipped), the manifest
keywords are written back untouched — duplicates and empty entries included —
so the written keywords set is not always deduplicated and empty-free. -/
theorem c6_keywords_counterexample :
    (writtenPkg { keywords := some ["web", "web", ""] } {} {} "server").keywords
      = some ["web", "web", ""]
    ∧ ¬ (["web", "web", ""] : List String).Nodup
    ∧ ("" : String) ∈ ["web", "web", ""] := by decide

/-- C6 as amended: whenever a prompted keywords answer is present, the
written keywords are deduplicated and contain no empty entry; in particular
manifest keywords web, ui with the prompted text "ui, cache, cache" resolve
to exactly the set containing web, ui and cache. -/
theorem c6_keywords (cur d : Pkg) (props : Props) (pr : String) (ws : List String)
    (h : props.keywords = some ws) :
    (∃ l, (writtenPkg cur d props pr).keywords = some l ∧ l.Nodup ∧ "" ∉ l)
    ∧ (writtenPkg { keywords := some ["web", "ui"] } {}
         { keywords := some (promptKeywordsFilter "ui, cache, cache") } "server").keywords
        = some ["ui", "cache", "web"]
    ∧ (["ui", "cache", "web"] : List String).Perm ["web", "ui", "cache"]
    ∧ (["ui", "cache", "web"] : List String).Nodup
    ∧ ("" : String) ∉ (["ui", "cache", "web"] : List String) := by
  refine ⟨?_, by decide, by decide, by decide, by decide⟩
  refine ⟨(jsUniq (ws ++ (mergePkg d (updatePkgOf cur props pr)).keywords.getD [])).filter
      (fun x => x != ""), ?_, ?_, ?_⟩
  · calc (writtenPkg cur d props pr).keywords
        = (combineKeywords props (mergePkg d (updatePkgOf cur props pr))).keywords := rfl
      _ = _ := by simp [combineKeywords, h]
  · exact List.Nodup.filter _ nodup_uniqAux
  · intro hm
    have hne := (List.mem_filter.mp hm).2
    simp at hne

/-- C6, witness for the amended claim at the spec example input. -/
theorem c6_keywords_witness :
    ∃ l, (writtenPkg { keywords := some ["web", "ui"] } {}
        { keywords := some (promptKeywordsFilter "ui, cache, cache") } "server").keywords
      = some l ∧ l.Nodup ∧ "" ∉ l :=
  (c6_keywords { keywords := some ["web", "ui"] } {}
    { keywords := some (promptKeywordsFilter "ui, cache, cache") } "server"
    (promptKeywordsFilter "ui, cache, cache") rfl).1

/-! ## Claim C7 -/

/-- C7, counterexample: under the double-quote style no formatting ruleset
file at all is selected for installation — not exactly one in every case. -/
theorem c7_quote_counterexample :
    (rootConfigsToCopy (some doubleQuote)).count ".eslintrc" = 0
    ∧ (0 : Nat) ≠ 1
    ∧ runsFormatter (some doubleQuote) = false := by decide

/-- C7 as amended: the single-quote style installs exactly one ruleset file
(.eslintrc) and triggers the post-generation formatter pass; the double-quote
style installs none and does not trigger the formatter. -/
theorem c7_quote_ruleset :
    (rootConfigsToCopy (some singleQuote)).count ".eslintrc" = 1
    ∧ runsFormatter (some singleQuote) = true
    ∧ (rootConfigsToCopy (some doubleQuote)).count ".eslintrc" = 0
    ∧ runsFormatter (some doubleQuote) = false
    ∧ rootConfigsToCopy (some singleQuote) = ["gulpfile.js", "config", "test", ".eslintrc"]
    ∧ rootConfigsToCopy (some doubleQuote) = ["gulpfile.js", "config", "test"] := by decide

/-! ## Claim C8 -/

/-- C8: each of the four dependency groupings present as a mapping in the
manifest being written is re-emitted with its keys in lexicographic order
(a permutation of the original entries when keys are distinct); a grouping
that is absent or not a mapping is left untouched; keys zeta, alpha, mu come
out as alpha, mu, zeta. -/
theorem c8_dependency_sorting (cur d : Pkg) (props : Props) (pr : String) :
    (∀ l, (mergedPkg cur d props pr).dependencies = some (DepVal.obj l) →
        (writtenPkg cur d props pr).dependencies = some (DepVal.obj (sortDepEntries l))
        ∧ ((sortDepEntries l).map Prod.fst).Pairwise (fun a b => strLe a b = true)
        ∧ ((l.map Prod.fst).Nodup → (sortDepEntries l).Perm l))
    ∧ (∀ s, (mergedPkg cur d props pr).dependencies = some (DepVal.prim s) →
        (writtenPkg cur d props pr).dependencies = some (DepVal.prim s))
    ∧ ((mergedPkg cur d props pr).dependencies = none →
        (writtenPkg cur d props pr).dependencies = none)
    ∧ (∀ l, (mergedPkg cur d props pr).devDependencies = some (DepVal.obj l) →
        (writtenPkg cur d props pr).devDependencies = some (DepVal.obj (sortDepEntries l))
        ∧ ((sortDepEntries l).map Prod.fst).Pairwise (fun a b => strLe a b = true)
        ∧ ((l.map Prod.fst).Nodup → (sortDepEntries l).Perm l))
    ∧ (∀ s, (mergedPkg cur d props pr).devDependencies = some (DepVal.prim s) →
        (writtenPkg cur d props pr).devDependencies = some (DepVal.prim s))
    ∧ ((mergedPkg cur d props pr).devDependencies = none →
        (writtenPkg cur d props pr).devDependencies = none)
    ∧ (∀ l, (mergedPkg cur d props pr).peerDependencies = some (DepVal.obj l) →
        (writtenPkg cur d props pr).peerDependencies = some (DepVal.obj (sortDepEntries l))
        ∧ ((sortDepEntries l).map Prod.fst).Pairwise (fun a b => strLe a b = true)
        ∧ ((l.map Prod.fst).Nodup → (sortDepEntries l).Perm l))
    ∧ (∀ s, (mergedPkg cur d props pr).peerDependencies = some (DepVal.prim s) →
        (writtenPkg cur d props pr).peerDependencies = some (DepVal.prim s))
    ∧ ((mergedPkg cur d props pr).peerDependencies = none →
        (writtenPkg cur d props pr).peerDependencies = none)
    ∧ (∀ l, (mergedPkg cur d props pr).optionalDependencies = some (DepVal.obj l) →
        (writtenPkg cur d props pr).optionalDependencies = some (DepVal.obj (sortDepEntries l))
        ∧ ((sortDepEntries l).map Prod.fst).Pairwise (fun a b => strLe a b = true)
        ∧ ((l.map Prod.fst).Nodup → (sortDepEntries l).Perm l))
    ∧ (∀ s, (mergedPkg cur d props pr).optionalDependencies = some (DepVal.prim s) →
        (writtenPkg cur d props pr).optionalDependencies = some (DepVal.prim s))
    ∧ ((mergedPkg cur d props pr).optionalDependencies = none →
        (writtenPkg cur d props pr).optionalDependencies = none)
    ∧ sortDepEntries [("zeta", "1"), ("alpha", "2"), ("mu", "3")]
        = [("alpha", "2"), ("mu", "3"), ("zeta", "1")] := by
  have e1 : (writtenPkg cur d props pr).dependencies
      = sortDepVal (mergedPkg cur d props pr).dependencies := rfl
  have e2 : (writtenPkg cur d props pr).devDependencies
      = sortDepVal (mergedPkg cur d props pr).devDependencies := rfl
  have e3 : (writtenPkg cur d props pr).peerDependencies
      = sortDepVal (mergedPkg cur d props pr).peerDependencies := rfl
  have e4 : (writtenPkg cur d props pr).optionalDependencies
      = sortDepVal (mergedPkg cur d props pr).optionalDependencies := rfl
  refine ⟨?_, ?_, ?_, ?_, ?_, ?_, ?_, ?_, ?_, ?_, ?_, ?_, by decide⟩
  · intro l h
    rw [e1, h]
    exact ⟨rfl, sorted_sortDepEntries l, fun hn => perm_sortDepEntries hn⟩
  · intro s h; rw [e1, h]; rfl
  · intro h; rw [e1, h]; rfl
  · intro l h
    rw [e2, h]
    exact ⟨rfl, sorted_sortDepEntries l, fun hn => perm_sortDepEntries hn⟩
  · intro s h; rw [e2, h]; rfl
  · intro h; rw [e2, h]; rfl
  · intro l h
    rw [e3, h]
    exact ⟨rfl, sorted_sortDepEntries l, fun hn => perm_sortDepEntries hn⟩
  · intro s h; rw [e3, h]; rfl
  · intro h; rw [e3, h]; rfl
  · intro l h
    rw [e4, h]
    exact ⟨rfl, sorted_sortDepEntries l, fun hn => perm_sortDepEntries hn⟩
  · intro s h; rw [e4, h]; rfl
  · intro h; rw [e4, h]; rfl

/-- C8, witness at the spec example: runtime dependencies keyed zeta, alpha,
mu are written in the order alpha, mu, zeta. -/
theorem c8_dependency_sorting_witness :
    (writtenPkg c8Cur {} {} "server").dependencies
      = some (DepVal.obj [("alpha", "2"), ("mu", "3"), ("zeta", "1")]) := by
  have h := ((c8_dependency_sorting c8Cur {} {} "server").1
    [("zeta", "1"), ("alpha", "2"), ("mu", "3")] (by decide)).1
  rw [h]; decide

/-! ## Claim C9 -/

/-- C9: a free-text author string is parsed into the three subfields by the
best-effort parser (modelled from the spec, as the parse-author package is an
external dependency); every subfield the parse does not produce stays
unresolved and its interactive prompt is issued instead, and parsing is a
total function — no author string fails the run. -/
theorem c9_author_parse (s : String) (pkg : Pkg) (fs : FS) (optName : Option String)
    (h : pkg.author = .str s) :
    (initProps pkg fs).authorName = (parseAuthor s).name
    ∧ (initProps pkg fs).authorEmail = (parseAuthor s).email
    ∧ (initProps pkg fs).authorUrl = (parseAuthor s).url
    ∧ ((parseAuthor s).name = none → "authorName" ∈
        promptedFields (filterPkgKeywords pkg) (askForName pkg optName (initProps pkg fs)))
    ∧ ((parseAuthor s).email = none → "authorEmail" ∈
        promptedFields (filterPkgKeywords pkg) (askForName pkg optName (initProps pkg fs)))
    ∧ ((parseAuthor s).url = none → "authorUrl" ∈
        promptedFields (filterPkgKeywords pkg) (askForName pkg optName (initProps pkg fs))) := by
  have h1 : (initProps pkg fs).authorName = (parseAuthor s).name := by
    unfold initProps; rw [h]
  have h2 : (initProps pkg fs).authorEmail = (parseAuthor s).email := by
    unfold initProps; rw [h]
  have h3 : (initProps pkg fs).authorUrl = (parseAuthor s).url := by
    unfold initProps; rw [h]
  have frame := askForName_only_name pkg optName (initProps pkg fs)
  refine ⟨h1, h2, h3, ?_, ?_, ?_⟩
  · intro hn
    have hx : (askForName pkg optName (initProps pkg fs)).authorName = none := by
      rw [frame.2.2.2.1, h1, hn]
    simp [promptedFields, promptOrder, promptWhen, List.mem_filter, hx, jsTruthyS]
  · intro hn
    have hx : (askForName pkg optName (initProps pkg fs)).authorEmail = none := by
      rw [frame.2.2.2.2.1, h2, hn]
    simp [promptedFields, promptOrder, promptWhen, List.mem_filter, hx, jsTruthyS]
  · intro hn
    have hx : (askForName pkg optName (initProps pkg fs)).authorUrl = none := by
      rw [frame.2.2.2.2.2.1, h3, hn]
    simp [promptedFields, promptOrder, promptWhen, List.mem_filter, hx, jsTruthyS]

/-- C9, witness: the empty author string parses to no subfields and all three
author prompts are issued. -/
theorem c9_author_parse_witness :
    (initProps { author := .str "" } []).authorName = (parseAuthor "").name
    ∧ "authorName" ∈ promptedFields (filterPkgKeywords { author := .str "" })
        (askForName { author := .str "" } none (initProps { author := .str "" } []))
    ∧ "authorEmail" ∈ promptedFields (filterPkgKeywords { author := .str "" })
        (askForName { author := .str "" } none (initProps { author := .str "" } []))
    ∧ "authorUrl" ∈ promptedFields (filterPkgKeywords { author := .str "" })
        (askForName { author := .str "" } none (initProps { author := .str "" } [])) := by
  have h := c9_author_parse "" { author := .str "" } [] none rfl
  exact ⟨h.1, h.2.2.2.1 (by decide), h.2.2.2.2.1 (by decide), h.2.2.2.2.2 (by decide)⟩

/-! ## Claim C10 -/

/-- C10: feature detection and the forcing of createDirectory happen exactly
when the manifest author is a structured object.  With an absent or string
author the filesystem markers are ignored (initializing gives the same props
on any two filesystems) and serverType, pwa, autoSsr, quoteType and
createDirectory are all prompted; with a structured author createDirectory is
forced to false — so if the prompt answers only cover prompted fields, the
resolved createDirectory stays false and the run trace never relocates the
destination root. -/
theorem c10_author_gating (pkg : Pkg) (fs fs2 : FS) (optName : Option String)
    (ans : Props) (root : String) :
    (pkg.author.isObj = false →
        initProps pkg fs = initProps pkg fs2
        ∧ "serverType" ∈ promptedFields (filterPkgKeywords pkg)
            (askForName pkg optName (initProps pkg fs))
        ∧ "pwa" ∈ promptedFields (filterPkgKeywords pkg)
            (askForName pkg optName (initProps pkg fs))
        ∧ "autoSsr" ∈ promptedFields (filterPkgKeywords pkg)
            (askForName pkg optName (initProps pkg fs))
        ∧ "quoteType" ∈ promptedFields (filterPkgKeywords pkg)
            (askForName pkg optName (initProps pkg fs))
        ∧ "createDirectory" ∈ promptedFields (filterPkgKeywords pkg)
            (askForName pkg optName (initProps pkg fs)))
    ∧ (pkg.author.isObj = true →
        (initProps pkg fs).createDirectory = some false
        ∧ ((ans.createDirectory.isSome = true →
              promptWhen (filterPkgKeywords pkg) (askForName pkg optName (initProps pkg fs))
                "createDirectory" = true) →
            (mergeProps (askForName pkg optName (initProps pkg fs)) ans).createDirectory
              = some false
            ∧ (runTrace (mergeProps (askForName pkg optName (initProps pkg fs)) ans) root).all
                (fun e => !(e.2.isRelocate)) = true)) := by
  have frame := askForName_only_name pkg optName (initProps pkg fs)
  constructor
  · intro hobj
    cases hpa : pkg.author with
    | obj n e u => rw [hpa] at hobj; simp [Author.isObj] at hobj
    | absent =>
      have heq : initProps pkg fs = initProps pkg fs2 := by
        unfold initProps; rw [hpa]
      have hst : (askForName pkg optName (initProps pkg fs)).serverType = none := by
        rw [frame.2.2.1]; unfold initProps; rw [hpa]
      have hpw : (askForName pkg optName (initProps pkg fs)).pwa = none := by
        rw [frame.2.2.2.2.2.2.1]; unfold initProps; rw [hpa]
      have has : (askForName pkg optName (initProps pkg fs)).autoSsr = none := by
        rw [frame.2.2.2.2.2.2.2.1]; unfold initProps; rw [hpa]
      have hqt : (askForName pkg optName (initProps pkg fs)).quoteType = none := by
        rw [frame.2.2.2.2.2.2.2.2.1]; unfold initProps; rw [hpa]
      have hcd : (askForName pkg optName (initProps pkg fs)).createDirectory = none := by
        rw [frame.2.2.2.2.2.2.2.2.2]; unfold initProps; rw [hpa]
      refine ⟨heq, ?_, ?_, ?_, ?_, ?_⟩ <;>
        simp [promptedFields, promptOrder, promptWhen, List.mem_filter,
          hst, hpw, has, hqt, hcd, jsTruthyS]
    | str s =>
      have heq : initProps pkg fs = initProps pkg fs2 := by
        unfold initProps; rw [hpa]
      have hst : (askForName pkg optName (initProps pkg fs)).serverType = none := by
        rw [frame.2.2.1]; unfold initProps; rw [hpa]
      have hpw : (askForName pkg optName (initProps pkg fs)).pwa = none := by
        rw [frame.2.2.2.2.2.2.1]; unfold initProps; rw [hpa]
      have has : (askForName pkg optName (initProps pkg fs)).autoSsr = none := by
        rw [frame.2.2.2.2.2.2.2.1]; unfold initProps; rw [hpa]
      have hqt : (askForName pkg optName (initProps pkg fs)).quoteType = none := by
        rw [frame.2.2.2.2.2.2.2.2.1]; unfold initProps; rw [hpa]
      have hcd : (askForName pkg optName (initProps pkg fs)).createDirectory = none := by
        rw [frame.2.2.2.2.2.2.2.2.2]; unfold initProps; rw [hpa]
      refine ⟨heq, ?_, ?_, ?_, ?_, ?_⟩ <;>
        simp [promptedFields, promptOrder, promptWhen, List.mem_filter,
          hst, hpw, has, hqt, hcd, jsTruthyS]
  · intro hobj
    cases hpa : pkg.author with
    | absent => rw [hpa] at hobj; simp [Author.isObj] at hobj
    | str s => rw [hpa] at hobj; simp [Author.isObj] at hobj
    | obj n e u =>
      have h1 : (initProps pkg fs).createDirectory = some false := by
        unfold initProps; rw [hpa]
      have h2 : (askForName pkg optName (initProps pkg fs)).createDirectory = some false := by
        rw [frame.2.2.2.2.2.2.2.2.2, h1]
      refine ⟨h1, ?_⟩
      intro hans
      have hpw : promptWhen (filterPkgKeywords pkg) (askForName pkg optName (initProps pkg fs))
          "createDirectory" = false := by
        simp [promptWhen, h2]
      have hnone : ans.createDirectory = none := by
        cases hac : ans.createDirectory with
        | none => rfl
        | some b =>
          have hcontra := hans (by rw [hac]; rfl)
          rw [hpw] at hcontra
          exact absurd hcontra (by simp)
      have hmerged : (mergeProps (askForName pkg optName (initProps pkg fs)) ans).createDirectory
          = some false := by
        simp [mergeProps, mergeO, hnone, h2]
      refine ⟨hmerged, ?_⟩
      unfold runTrace
      rw [hmerged]
      simp [jsTruthyB, Act.isRelocate]

/-- C10, witness: an authorless manifest ignores an Express marker file and
prompts for serverType; a structured-author manifest forces createDirectory
to false and its run trace performs no relocation. -/
theorem c10_author_gating_witness :
    initProps ({} : Pkg) ["src/server/express-server.js"] = initProps ({} : Pkg) []
    ∧ "serverType" ∈ promptedFields (filterPkgKeywords {})
        (askForName {} none (initProps {} ["src/server/express-server.js"]))
    ∧ (initProps c10ObjPkg []).createDirectory = some false
    ∧ (runTrace (mergeProps (askForName c10ObjPkg none (initProps c10ObjPkg [])) {}) "/w").all
        (fun e => !(e.2.isRelocate)) = true := by
  have ha := (c10_author_gating {} ["src/server/express-server.js"] [] none {} "/w").1 rfl
  have hb := (c10_author_gating c10ObjPkg [] [] none {} "/w").2 rfl
  exact ⟨ha.1, ha.2.1, hb.1, (hb.2 (fun hcontra => absurd hcontra (by decide))).2⟩

end Electrode

example : Electrode.kebabCase "My Cool App" = "my-cool-app" := by decide
example : Electrode.kebabCase "CliName" = "cli-name" := by decide
example : Electrode.kebabCase "existing-app" = "existing-app" := by decide
example : Electrode.kebabCase "abc123" = "abc-123" := by decide
example : Electrode.kebabCase "FOOBar" = "foo-bar" := by decide
example : Electrode.parseAuthor "Jane Doe <jd@x.io> (https://x.io)" =
    { name := some "Jane Doe", email := some "jd@x.io", url := some "https://x.io" } := by decide
example : Electrode.parseAuthor "" = { } := by decide
example : Electrode.promptKeywordsFilter "ui, cache, cache" = ["ui", "cache", "cache"] := by decide
